import Mathlib

/-!
Verification of the passwordless-authentication engine of the `anjs-v1-bibus`
repository against its natural-language specification.

The embedding translates the TypeScript source:
  * `AuthController` (register / requestToken / login / logout),
  * the fastify `onRequest` authentication hook (the inbound gate),
  * the functional `register` handler,
into pure Lean functions over an explicit persistent-store state.  Model
classes that the controller calls but whose files are not part of the shown
source (`models/user`, `models/user-email`, `models/temp-token`,
`utils/jwt-tokens`, `utils/responses`) are modelled from the specification;
each such definition carries a doc comment saying so.
-/

namespace Bibus

/-- A `User` row: identity root with an opaque stable id (§3 of the spec). -/
structure UserRec where
  id : Nat
  deriving DecidableEq

/-- A `UserEmail` row: address value, `main` flag, owning user reference (§3). -/
structure UserEmailRec where
  value : String
  main : Bool
  userId : Nat
  deriving DecidableEq

/-- A `TempToken` row: id (the literal value mailed to the user), `used` flag,
owning `UserEmail` reference.  Emails are globally unique by value, so the
owning email is referenced by its value (§3). -/
structure TempTokenRec where
  id : Nat
  used : Bool
  userEmailValue : String
  deriving DecidableEq

/-- A `JWTToken` / `SessionCredential` row: id (the `jti`-like field embedded
in the signed token), `active` flag, owning user reference (§3). -/
structure JwtTokenRec where
  id : Nat
  active : Bool
  userId : Nat
  deriving DecidableEq

/-- The persistent store: the single source of truth shared by all requests
(§5).  `nextId` models the supply of fresh ids (uuids in the source): every
id ever handed out is below `nextId`, mirroring global uniqueness of uuids. -/
structure Store where
  users : List UserRec
  userEmails : List UserEmailRec
  tempTokens : List TempTokenRec
  jwtTokens : List JwtTokenRec
  nextId : Nat
  deriving DecidableEq

/-- Error kinds of the engine, following the spec taxonomy (§7).  The source
throws `new Error(message)`; the spec assigns each throw site a kind:
`ConflictError` for "already exist", `InvalidTokenError` for the login lookup
miss, `PermissionDeniedError` for gate/logout auth failures, `DeliveryError`
for email-send failures, `InvalidSignature` for `JWTToken.verify` failures
(§4.4), and `internalError` for the remaining "should not happen" throws. -/
inductive AppError where
  | conflictError
  | invalidTokenError
  | permissionDeniedError
  | deliveryError
  | invalidSignature
  | internalError (msg : String)
  deriving DecidableEq

/-- Modelled from the spec: the uniform success envelope `{requestId}` of
`utils/responses` (`SuccessResponse.create(request.id)`), whose file is not
part of the shown source (§6: "uniform success envelope {requestId, data?}").
The body carries the request id and nothing else. -/
structure SuccessResponseWR where
  requestId : String
  deriving DecidableEq

/-- Modelled from the spec: the success envelope with a data payload,
`SuccessResponse.create(request.id, data)` (§6). -/
structure SuccessResponseR (α : Type) where
  requestId : String
  data : α

/-- The claim set embedded in a signed credential: `{id, userId, userEmail}`
as signed by `AuthController.login` (§6: "signed token embedding
{credentialId, userId, email}"). -/
structure JWTClaims where
  id : Nat
  userId : Nat
  userEmail : String
  deriving DecidableEq

/-- Modelled from the spec: the signed credential format of
`utils/jwt-tokens`, whose file is not part of the shown source.  Token
strings are modelled symbolically as an unforgeable signature scheme: a
`signed` value records the signing key and the claims; every other string is
`garbage`.  This captures §4.4: verification succeeds exactly on tokens
signed with the right secret. -/
inductive TokenStr where
  | signed (key : String) (claims : JWTClaims)
  | garbage (raw : String)
  deriving DecidableEq

/-- Modelled from the spec: `JWTToken.sign(privateKey, claims)` —
deterministic signature over the claim set (§4.4). -/
def signToken (key : String) (c : JWTClaims) : TokenStr :=
  TokenStr.signed key c

/-- Modelled from the spec: `JWTToken.verify(secret, token)` — returns the
claims on a valid signature and "fails(InvalidSignature)" on bad signature or
malformed structure (§4.4).  The fastify hook calls it without a catch, so
this error propagates as-is. -/
def verifyToken (key : String) (t : TokenStr) : Except AppError JWTClaims :=
  match t with
  | TokenStr.signed k c => if k = key then Except.ok c else Except.error AppError.invalidSignature
  | TokenStr.garbage _ => Except.error AppError.invalidSignature

/-- The email collaborator (§6): `sendEmail(message, address)`.  `ok` says
whether delivery of a given message to a given address succeeds; a `false`
models the promise rejecting with a delivery failure. -/
structure EmailSender where
  ok : String → String → Bool

/-- One outbound message handed to the email collaborator. -/
structure SentMail where
  message : String
  address : String
  deriving DecidableEq

/-- Result of one controller operation: the response or thrown error, the
persistent store after the call (writes before a throw are not rolled back —
there is no transaction in the source), and the messages delivered. -/
structure OpResult (ρ : Type) where
  res : Except AppError ρ
  store : Store
  sent : List SentMail

/-- Modelled from the spec: `UserEmail.checkEmailExist(email)` of
`models/user-email` — global existence check across all users
(§4.1 `emailExists`). -/
def checkEmailExist (s : Store) (email : String) : Bool :=
  s.userEmails.any (fun e => e.value = email)

/-- `User.findOne({where: {id}})`: first user row with the given id. -/
def findUserById (s : Store) (uid : Nat) : Option UserRec :=
  s.users.find? (fun u => u.id = uid)

/-- The `UserEmail` rows owned by a user. -/
def userEmailsOf (s : Store) (u : UserRec) : List UserEmailRec :=
  s.userEmails.filter (fun e => e.userId = u.id)

/-- Modelled from the spec: `user.mainEmail()` of `models/user` — the user's
email with `main = true` (§3: at most one per user). -/
def mainEmail (s : Store) (u : UserRec) : Option UserEmailRec :=
  (userEmailsOf s u).find? (fun e => e.main)

/-- Modelled from the spec: `user.lastTempToken()` of `models/user` — the
most recently created temp token owned, via its email, by the user. -/
def lastTempToken (s : Store) (u : UserRec) : Option TempTokenRec :=
  (s.tempTokens.filter
    (fun t => (userEmailsOf s u).any (fun e => e.value = t.userEmailValue))).getLast?

/-- Modelled from the spec: `user.lastJwtToken()` of `models/user` — the
most recently created session credential of the user. -/
def lastJwtToken (s : Store) (u : UserRec) : Option JwtTokenRec :=
  (s.jwtTokens.filter (fun j => j.userId = u.id)).getLast?

/-- Modelled from the spec: `user.jwtTokenById(id)` of `models/user` — the
user's own credential with the given id; a credential of another user is not
found (§4.3 `isActive` "must verify the credential belongs to the claimed
user"). -/
def jwtTokenById (s : Store) (u : UserRec) (jid : Nat) : Option JwtTokenRec :=
  s.jwtTokens.find? (fun j => j.userId = u.id && j.id = jid)

/-- Modelled from the spec: `User.registerUser(email)` followed by
`user.save()` — creates one `User`, one `UserEmail` with `main = true`, and
one unused `TempToken` bound to that email (§4.1 `createUser`,
§4.2 `issueToken`; source comment "Create new user, email and passwordless
token").  Returns the store after the save together with the new user. -/
def registerUser (s : Store) (email : String) : Store × UserRec :=
  let uid := s.nextId
  let tid := s.nextId + 1
  ({ users := s.users ++ [{ id := uid }]
     userEmails := s.userEmails ++ [{ value := email, main := true, userId := uid }]
     tempTokens := s.tempTokens ++ [{ id := tid, used := false, userEmailValue := email }]
     jwtTokens := s.jwtTokens
     nextId := s.nextId + 2 }, { id := uid })

/-- Modelled from the spec: `user.createNewToken()` of `models/user` —
§4.2 `issueToken`: creates and persists a new unused token bound to the
user's main email, leaving prior unused tokens valid. -/
def createNewToken (s : Store) (u : UserRec) : Store :=
  match mainEmail s u with
  | none => s
  | some e =>
    { s with
      tempTokens := s.tempTokens ++ [{ id := s.nextId, used := false, userEmailValue := e.value }]
      nextId := s.nextId + 1 }

/-- Modelled from the spec: `user.loginByTempToken(t)` followed by
`user.save()` — §4.2 `consumeToken` marks the token used (the irreversible
`used = false → true` transition) and §4.3 `openSession` creates a new
active session credential for the user. -/
def loginByTempToken (s : Store) (u : UserRec) (t : TempTokenRec) : Store :=
  { s with
    tempTokens := s.tempTokens.map
      (fun x => if x.id = t.id then { x with used := true } else x)
    jwtTokens := s.jwtTokens ++ [{ id := s.nextId, active := true, userId := u.id }]
    nextId := s.nextId + 1 }

/-- Modelled from the spec: `user.logout()` of `models/user`.  The
controller calls it with no credential identifier and the gate records only
`request.userId`, so the spec's `revoke(credentialId)` has no argument to
act on at this call site; the user-granularity revocation the spec provides
is `revokeAll(userId)` (§4.3), which this models: every session credential
of the user becomes inactive.  Idempotent; other users' rows untouched. -/
def userLogout (s : Store) (u : UserRec) : Store :=
  { s with
    jwtTokens := s.jwtTokens.map
      (fun j => if j.userId = u.id then { j with active := false } else j) }

/-- `AuthController.register` (src/unnamed/part_001 lines 22-44): reject if
the email exists; create user, email and token; mail the token; return the
bare success envelope.  The user row is saved before the mail is sent, so a
delivery failure leaves the new rows in the store. -/
def register (sender : EmailSender) (s : Store) (reqId : String) (email : String) :
    OpResult SuccessResponseWR :=
  if checkEmailExist s email then
    { res := Except.error AppError.conflictError, store := s, sent := [] }
  else
    let p := registerUser s email
    match lastTempToken p.1 p.2, mainEmail p.1 p.2 with
    | some token, some em =>
      let msg := "Your token is " ++ toString token.id
      if sender.ok msg em.value then
        { res := Except.ok { requestId := reqId }, store := p.1, sent := [{ message := msg, address := em.value }] }
      else
        { res := Except.error AppError.deliveryError, store := p.1, sent := [] }
    | _, _ =>
      { res := Except.error (AppError.internalError "Something went wrong"), store := p.1, sent := [] }

/-- The `where` clause of `UserEmail.findOne` in `requestToken`:
`{main: true, value: email}`. -/
def mainEmailValuePred (email : String) (e : UserEmailRec) : Bool :=
  e.main && e.value = email

/-- The `where` clause of `UserEmail` relation loading in `login`: the row
owning a temp token, referenced by its globally unique value. -/
def emailValuePred (v : String) (e : UserEmailRec) : Bool :=
  e.value = v

/-- The `where` clause of `TempToken.findOne` in `login`:
`{id, used: false, userEmail: {value: email, main: true}}` — an unused token
with the requested id whose owning email row has the claimed value and is
a main email. -/
def loginPred (s : Store) (email : String) (tid : Nat) (t : TempTokenRec) : Bool :=
  t.id = tid && t.used = false &&
    s.userEmails.any (fun e => e.value = t.userEmailValue && e.value = email && e.main)

/-- `AuthController.requestToken` (src/unnamed/part_001 lines 46-77): look up
the main email row with the given value; if absent, succeed doing nothing;
otherwise create a new token for the owner, fetch it back, and mail it. -/
def requestToken (sender : EmailSender) (s : Store) (reqId : String) (email : String) :
    OpResult SuccessResponseWR :=
  match s.userEmails.find? (mainEmailValuePred email) with
  | none => { res := Except.ok { requestId := reqId }, store := s, sent := [] }
  | some ue =>
    match findUserById s ue.userId with
    | none =>
      { res := Except.error (AppError.internalError "relation user missing"), store := s, sent := [] }
    | some user =>
      let s1 := createNewToken s user
      match lastTempToken s1 user with
      | none =>
        { res := Except.error (AppError.internalError "There is no token"), store := s1, sent := [] }
      | some token =>
        match mainEmail s1 user with
        | none =>
          { res := Except.error (AppError.internalError "main email missing"), store := s1, sent := [] }
        | some em =>
          let msg := "Your token is " ++ toString token.id
          if sender.ok msg em.value then
            { res := Except.ok { requestId := reqId }, store := s1, sent := [{ message := msg, address := em.value }] }
          else
            { res := Except.error AppError.deliveryError, store := s1, sent := [] }

/-- `AuthController.login` (src/unnamed/part_001 lines 79-120): find an
unused temp token with the given id whose owning email is the main email
with the claimed value; on a miss throw the generic invalid-token error; on
a hit consume the token, open a session, and return the signed credential. -/
def login (privateKey : String) (s : Store) (reqId : String) (email : String) (tempTokenId : Nat) :
    OpResult (SuccessResponseR TokenStr) :=
  match s.tempTokens.find? (loginPred s email tempTokenId) with
  | none => { res := Except.error AppError.invalidTokenError, store := s, sent := [] }
  | some t =>
    match s.userEmails.find? (emailValuePred t.userEmailValue) with
    | none =>
      { res := Except.error (AppError.internalError "relation userEmail missing"), store := s, sent := [] }
    | some ue =>
      match findUserById s ue.userId with
      | none =>
        { res := Except.error (AppError.internalError "relation user missing"), store := s, sent := [] }
      | some user =>
        let s1 := loginByTempToken s user t
        match lastJwtToken s1 user with
        | none =>
          { res := Except.error (AppError.internalError "No JWT Token"), store := s1, sent := [] }
        | some jwt =>
          match mainEmail s1 user with
          | none =>
            { res := Except.error (AppError.internalError "main email missing"), store := s1, sent := [] }
          | some em =>
            { res := Except.ok
                { requestId := reqId
                  data := signToken privateKey { id := jwt.id, userId := user.id, userEmail := em.value } }
              store := s1
              sent := [] }

/-- `AuthController.logout` (src/unnamed/part_001 lines 122-144): deny when
the gate did not set `request.userId`; otherwise load the user and run the
user-level logout. -/
def logout (s : Store) (reqId : String) (requestUserId : Option Nat) :
    OpResult SuccessResponseWR :=
  match requestUserId with
  | none => { res := Except.error AppError.permissionDeniedError, store := s, sent := [] }
  | some uid =>
    match findUserById s uid with
    | none =>
      { res := Except.error (AppError.internalError "User must be"), store := s, sent := [] }
    | some user =>
      { res := Except.ok { requestId := reqId }, store := userLogout s user, sent := [] }

/-- Does `sub` occur as a contiguous segment of `hay`?  Mirrors the JS
`String.includes` used by the gate's allow-list test. -/
def hasSeg (sub : List Char) : List Char → Bool
  | [] => sub.isEmpty
  | c :: rest => sub.isPrefixOf (c :: rest) || hasSeg sub rest

/-- `request.url.includes(sub)` of the fastify hook. -/
def urlIncludes (url : String) (sub : String) : Bool :=
  hasSeg sub.toList url.toList

/-- The authorization header, symbolically: either `Bearer ` followed by a
token string, or a raw value from which `split("Bearer ")[1]` yields nothing
truthy (missing prefix or empty remainder). -/
inductive AuthHeaderVal where
  | bearer (t : TokenStr)
  | noBearer (raw : String)
  deriving DecidableEq

/-- `headerToken.split("Bearer ")[1]` of the hook, on the symbolic header. -/
def extractBearer : AuthHeaderVal → Option TokenStr
  | AuthHeaderVal.bearer t => some t
  | AuthHeaderVal.noBearer _ => none

/-- The fastify `onRequest` authentication hook
(src/main-back/src/fastify-app.ts lines 73-113).  Returns the `userId`
annotation placed on the request (`none` when the hook returned early on the
allow-list without authenticating), or the error thrown.  The
`JWTToken.verify` call has no catch in the source, so its failure propagates
with the verifier's own error rather than the hook's permission-denied
error. -/
def authHook (secret : String) (s : Store) (url : String) (header : Option AuthHeaderVal) :
    Except AppError (Option Nat) :=
  if urlIncludes url "documentation" || urlIncludes url "health" then
    Except.ok none
  else
    match header with
    | none => Except.error AppError.permissionDeniedError
    | some h =>
      match extractBearer h with
      | none => Except.error AppError.permissionDeniedError
      | some tok =>
        match verifyToken secret tok with
        | Except.error e => Except.error e
        | Except.ok decoded =>
          match findUserById s decoded.userId with
          | none => Except.error AppError.permissionDeniedError
          | some user =>
            match jwtTokenById s user decoded.id with
            | none => Except.error AppError.permissionDeniedError
            | some jwtToken =>
              if jwtToken.active then Except.ok (some user.id)
              else Except.error AppError.permissionDeniedError

/-- The protected `POST /auth/logout` route: the gate runs first and, when it
passes, `AuthController.logout` runs with the `userId` the gate set. -/
def protectedLogout (secret : String) (s : Store) (reqId : String) (url : String)
    (header : Option AuthHeaderVal) : OpResult SuccessResponseWR :=
  match authHook secret s url header with
  | Except.error e => { res := Except.error e, store := s, sent := [] }
  | Except.ok uid => logout s reqId uid

/-- Store well-formedness: every id handed out so far is below the fresh-id
bound (uuids never collide), and every email row references an existing user.
Established by construction and preserved by every operation. -/
def WF (s : Store) : Prop :=
  (∀ u ∈ s.users, u.id < s.nextId) ∧
  (∀ e ∈ s.userEmails, e.userId < s.nextId) ∧
  (∀ t ∈ s.tempTokens, t.id < s.nextId) ∧
  (∀ j ∈ s.jwtTokens, j.id < s.nextId ∧ j.userId < s.nextId) ∧
  (∀ e ∈ s.userEmails, ∃ u ∈ s.users, u.id = e.userId)

/-- The token id `tid` has been handed out and every temp token bearing it is
marked used.  This is the state of affairs after a successful login with
`tid`; it is preserved by every operation. -/
def Consumed (s : Store) (tid : Nat) : Prop :=
  tid < s.nextId ∧ ∀ t ∈ s.tempTokens, t.id = tid → t.used = true

/-- Some email row carries the given address value. -/
def EmailExists (s : Store) (email : String) : Prop :=
  ∃ e ∈ s.userEmails, e.value = email

/-- One step of the system: the store left behind by any single call to one
of the four public operations, with arbitrary arguments. -/
inductive Step : Store → Store → Prop where
  | ofRegister (sender : EmailSender) (reqId email : String) (s : Store) :
      Step s (register sender s reqId email).store
  | ofRequestToken (sender : EmailSender) (reqId email : String) (s : Store) :
      Step s (requestToken sender s reqId email).store
  | ofLogin (key reqId email : String) (tid : Nat) (s : Store) :
      Step s (login key s reqId email tid).store
  | ofLogout (reqId : String) (uid : Option Nat) (s : Store) :
      Step s (logout s reqId uid).store

/-- Reachability: any finite sequence of operation calls. -/
def Reachable : Store → Store → Prop :=
  Relation.ReflTransGen Step

/-- The store after `register` is either unchanged or the `registerUser`
store. -/
theorem register_store_cases (sender : EmailSender) (s : Store) (reqId email : String) :
    (register sender s reqId email).store = s ∨
      (register sender s reqId email).store = (registerUser s email).1 := by
  unfold register
  split
  · exact Or.inl rfl
  · dsimp only
    split
    · split
      · exact Or.inr rfl
      · exact Or.inr rfl
    · exact Or.inr rfl

/-- The store after `requestToken` is either unchanged or a
`createNewToken` store. -/
theorem requestToken_store_cases (sender : EmailSender) (s : Store) (reqId email : String) :
    (requestToken sender s reqId email).store = s ∨
      ∃ u, (requestToken sender s reqId email).store = createNewToken s u := by
  unfold requestToken
  split
  · exact Or.inl rfl
  · split
    · exact Or.inl rfl
    · rename_i user huser
      dsimp only
      split
      · exact Or.inr ⟨user, rfl⟩
      · split
        · exact Or.inr ⟨user, rfl⟩
        · split
          · exact Or.inr ⟨user, rfl⟩
          · exact Or.inr ⟨user, rfl⟩

/-- The store after `login` is either unchanged or a `loginByTempToken`
store for a user present in the store. -/
theorem login_store_cases (key : String) (s : Store) (reqId email : String) (tid : Nat) :
    (login key s reqId email tid).store = s ∨
      ∃ u t, u ∈ s.users ∧ (login key s reqId email tid).store = loginByTempToken s u t := by
  unfold login
  split
  · exact Or.inl rfl
  · rename_i t ht
    split
    · exact Or.inl rfl
    · rename_i ue hue
      split
      · exact Or.inl rfl
      · rename_i user huser
        have hmem : user ∈ s.users := List.mem_of_find?_eq_some huser
        dsimp only
        split
        · exact Or.inr ⟨user, t, hmem, rfl⟩
        · split
          · exact Or.inr ⟨user, t, hmem, rfl⟩
          · exact Or.inr ⟨user, t, hmem, rfl⟩

/-- The store after `logout` is either unchanged or a `userLogout` store. -/
theorem logout_store_cases (s : Store) (reqId : String) (uid : Option Nat) :
    (logout s reqId uid).store = s ∨ ∃ u, (logout s reqId uid).store = userLogout s u := by
  unfold logout
  split
  · exact Or.inl rfl
  · split
    · exact Or.inl rfl
    · exact Or.inr ⟨_, rfl⟩

/-- `registerUser` preserves well-formedness: the new rows use fresh ids. -/
theorem wf_registerUser (s : Store) (email : String) (h : WF s) : WF (registerUser s email).1 := by
  obtain ⟨hu, he, ht, hj, hr⟩ := h
  unfold registerUser
  refine ⟨?_, ?_, ?_, ?_, ?_⟩ <;> dsimp only
  · intro x hx
    rcases List.mem_append.mp hx with h1 | h1
    · have := hu x h1; omega
    · simp only [List.mem_singleton] at h1; subst h1; dsimp only; omega
  · intro x hx
    rcases List.mem_append.mp hx with h1 | h1
    · have := he x h1; omega
    · simp only [List.mem_singleton] at h1; subst h1; dsimp only; omega
  · intro x hx
    rcases List.mem_append.mp hx with h1 | h1
    · have := ht x h1; omega
    · simp only [List.mem_singleton] at h1; subst h1; dsimp only; omega
  · intro x hx
    have := hj x hx
    omega
  · intro x hx
    rcases List.mem_append.mp hx with h1 | h1
    · obtain ⟨y, hy, hid⟩ := hr x h1
      exact ⟨y, List.mem_append.mpr (Or.inl hy), hid⟩
    · simp only [List.mem_singleton] at h1; subst h1
      exact ⟨{ id := s.nextId }, List.mem_append.mpr (Or.inr (List.mem_singleton.mpr rfl)), rfl⟩

/-- `createNewToken` preserves well-formedness. -/
theorem wf_createNewToken (s : Store) (u : UserRec) (h : WF s) : WF (createNewToken s u) := by
  unfold createNewToken
  split
  · exact h
  · obtain ⟨hu, he, ht, hj, hr⟩ := h
    refine ⟨?_, ?_, ?_, ?_, ?_⟩ <;> dsimp only
    · intro x hx; have := hu x hx; omega
    · intro x hx; have := he x hx; omega
    · intro x hx
      rcases List.mem_append.mp hx with h1 | h1
      · have := ht x h1; omega
      · simp only [List.mem_singleton] at h1; subst h1; dsimp only; omega
    · intro x hx; have := hj x hx; omega
    · exact hr

/-- `loginByTempToken` preserves well-formedness when the user is a stored
row. -/
theorem wf_loginByTempToken (s : Store) (u : UserRec) (t : TempTokenRec)
    (hm : u ∈ s.users) (h : WF s) : WF (loginByTempToken s u t) := by
  obtain ⟨hu, he, ht, hj, hr⟩ := h
  unfold loginByTempToken
  refine ⟨?_, ?_, ?_, ?_, ?_⟩ <;> dsimp only
  · intro x hx; have := hu x hx; omega
  · intro x hx; have := he x hx; omega
  · intro x hx
    obtain ⟨y, hy, hfy⟩ := List.mem_map.mp hx
    by_cases hc : y.id = t.id
    · rw [if_pos hc] at hfy; subst hfy; dsimp only; have := ht y hy; omega
    · rw [if_neg hc] at hfy; subst hfy; have := ht y hy; omega
  · intro x hx
    rcases List.mem_append.mp hx with h1 | h1
    · have := hj x h1; omega
    · simp only [List.mem_singleton] at h1; subst h1; dsimp only
      have := hu u hm; omega
  · exact hr

/-- `userLogout` preserves well-formedness. -/
theorem wf_userLogout (s : Store) (u : UserRec) (h : WF s) : WF (userLogout s u) := by
  obtain ⟨hu, he, ht, hj, hr⟩ := h
  unfold userLogout
  refine ⟨hu, he, ht, ?_, hr⟩
  intro x hx
  obtain ⟨y, hy, hfy⟩ := List.mem_map.mp hx
  by_cases hc : y.userId = u.id
  · rw [if_pos hc] at hfy; subst hfy; dsimp only; exact hj y hy
  · rw [if_neg hc] at hfy; subst hfy; exact hj y hy

/-- `registerUser` cannot resurrect a consumed token id: the token it adds
carries a fresh id. -/
theorem consumed_registerUser (s : Store) (email : String) (tid : Nat)
    (h : Consumed s tid) : Consumed (registerUser s email).1 tid := by
  obtain ⟨hlt, hall⟩ := h
  unfold registerUser
  refine ⟨by dsimp only; omega, ?_⟩
  dsimp only
  intro t hmem hid
  rcases List.mem_append.mp hmem with h1 | h1
  · exact hall t h1 hid
  · simp only [List.mem_singleton] at h1; subst h1
    exfalso; dsimp only at hid; omega

/-- `createNewToken` cannot resurrect a consumed token id. -/
theorem consumed_createNewToken (s : Store) (u : UserRec) (tid : Nat)
    (h : Consumed s tid) : Consumed (createNewToken s u) tid := by
  obtain ⟨hlt, hall⟩ := h
  unfold createNewToken
  split
  · exact ⟨hlt, hall⟩
  · refine ⟨by dsimp only; omega, ?_⟩
    dsimp only
    intro t hmem hid
    rcases List.mem_append.mp hmem with h1 | h1
    · exact hall t h1 hid
    · simp only [List.mem_singleton] at h1; subst h1
      exfalso; dsimp only at hid; omega

/-- `loginByTempToken` only ever sets `used` to `true`, so a consumed id
stays consumed. -/
theorem consumed_loginByTempToken (s : Store) (u : UserRec) (t : TempTokenRec) (tid : Nat)
    (h : Consumed s tid) : Consumed (loginByTempToken s u t) tid := by
  obtain ⟨hlt, hall⟩ := h
  unfold loginByTempToken
  refine ⟨by dsimp only; omega, ?_⟩
  dsimp only
  intro x hx hid
  obtain ⟨y, hy, hfy⟩ := List.mem_map.mp hx
  by_cases hc : y.id = t.id
  · rw [if_pos hc] at hfy; subst hfy; rfl
  · rw [if_neg hc] at hfy; subst hfy; exact hall y hy hid

/-- `userLogout` does not touch temp tokens. -/
theorem consumed_userLogout (s : Store) (u : UserRec) (tid : Nat)
    (h : Consumed s tid) : Consumed (userLogout s u) tid := h

/-- `registerUser` keeps every existing email row. -/
theorem emailExists_registerUser (s : Store) (email v : String)
    (h : EmailExists s v) : EmailExists (registerUser s email).1 v := by
  obtain ⟨e, he, hv⟩ := h
  exact ⟨e, List.mem_append.mpr (Or.inl he), hv⟩

/-- `createNewToken` does not touch email rows. -/
theorem emailExists_createNewToken (s : Store) (u : UserRec) (v : String)
    (h : EmailExists s v) : EmailExists (createNewToken s u) v := by
  unfold createNewToken
  split
  · exact h
  · exact h

/-- `loginByTempToken` does not touch email rows. -/
theorem emailExists_loginByTempToken (s : Store) (u : UserRec) (t : TempTokenRec) (v : String)
    (h : EmailExists s v) : EmailExists (loginByTempToken s u t) v := h

/-- `userLogout` does not touch email rows. -/
theorem emailExists_userLogout (s : Store) (u : UserRec) (v : String)
    (h : EmailExists s v) : EmailExists (userLogout s u) v := h

/-- Every operation preserves well-formedness. -/
theorem step_wf {s s2 : Store} (h : WF s) (hs : Step s s2) : WF s2 := by
  cases hs with
  | ofRegister sender reqId email =>
    rcases register_store_cases sender s reqId email with hc | hc
    · rw [hc]; exact h
    · rw [hc]; exact wf_registerUser s email h
  | ofRequestToken sender reqId email =>
    rcases requestToken_store_cases sender s reqId email with hc | ⟨u, hc⟩
    · rw [hc]; exact h
    · rw [hc]; exact wf_createNewToken s u h
  | ofLogin key reqId email tid =>
    rcases login_store_cases key s reqId email tid with hc | ⟨u, t, hm, hc⟩
    · rw [hc]; exact h
    · rw [hc]; exact wf_loginByTempToken s u t hm h
  | ofLogout reqId uid =>
    rcases logout_store_cases s reqId uid with hc | ⟨u, hc⟩
    · rw [hc]; exact h
    · rw [hc]; exact wf_userLogout s u h

/-- No operation reverses the `used` flag of a consumed token id. -/
theorem step_consumed {s s2 : Store} (tid : Nat) (h : Consumed s tid) (hs : Step s s2) :
    Consumed s2 tid := by
  cases hs with
  | ofRegister sender reqId email =>
    rcases register_store_cases sender s reqId email with hc | hc
    · rw [hc]; exact h
    · rw [hc]; exact consumed_registerUser s email tid h
  | ofRequestToken sender reqId email =>
    rcases requestToken_store_cases sender s reqId email with hc | ⟨u, hc⟩
    · rw [hc]; exact h
    · rw [hc]; exact consumed_createNewToken s u tid h
  | ofLogin key reqId email tid2 =>
    rcases login_store_cases key s reqId email tid2 with hc | ⟨u, t, hm, hc⟩
    · rw [hc]; exact h
    · rw [hc]; exact consumed_loginByTempToken s u t tid h
  | ofLogout reqId uid =>
    rcases logout_store_cases s reqId uid with hc | ⟨u, hc⟩
    · rw [hc]; exact h
    · rw [hc]; exact consumed_userLogout s u tid h

/-- No operation removes an email row's address from the store. -/
theorem step_emailExists {s s2 : Store} (v : String) (h : EmailExists s v) (hs : Step s s2) :
    EmailExists s2 v := by
  cases hs with
  | ofRegister sender reqId email =>
    rcases register_store_cases sender s reqId email with hc | hc
    · rw [hc]; exact h
    · rw [hc]; exact emailExists_registerUser s email v h
  | ofRequestToken sender reqId email =>
    rcases requestToken_store_cases sender s reqId email with hc | ⟨u, hc⟩
    · rw [hc]; exact h
    · rw [hc]; exact emailExists_createNewToken s u v h
  | ofLogin key reqId email tid =>
    rcases login_store_cases key s reqId email tid with hc | ⟨u, t, hm, hc⟩
    · rw [hc]; exact h
    · rw [hc]; exact emailExists_loginByTempToken s u t v h
  | ofLogout reqId uid =>
    rcases logout_store_cases s reqId uid with hc | ⟨u, hc⟩
    · rw [hc]; exact h
    · rw [hc]; exact emailExists_userLogout s u v h

/-- Well-formedness holds in every reachable store. -/
theorem reachable_wf {s s2 : Store} (h : WF s) (hr : Reachable s s2) : WF s2 := by
  induction hr with
  | refl => exact h
  | tail _ hstep ih => exact step_wf ih hstep

/-- A consumed token id stays consumed in every reachable store. -/
theorem reachable_consumed {s s2 : Store} (tid : Nat) (h : Consumed s tid)
    (hr : Reachable s s2) : Consumed s2 tid := by
  induction hr with
  | refl => exact h
  | tail _ hstep ih => exact step_consumed tid ih hstep

/-- An existing email address exists in every reachable store. -/
theorem reachable_emailExists {s s2 : Store} (v : String) (h : EmailExists s v)
    (hr : Reachable s s2) : EmailExists s2 v := by
  induction hr with
  | refl => exact h
  | tail _ hstep ih => exact step_emailExists v ih hstep

/-- A login that returned the signed credential found an unused matching
token and left behind the `loginByTempToken` store for it. -/
theorem login_success_shape (key : String) (s : Store) (reqId email : String) (tid : Nat)
    (hsucc : (login key s reqId email tid).res.isOk = true) :
    ∃ t user, s.tempTokens.find? (loginPred s email tid) = some t ∧ user ∈ s.users ∧
      (login key s reqId email tid).store = loginByTempToken s user t := by
  unfold login at hsucc ⊢
  cases hfind : s.tempTokens.find? (loginPred s email tid) with
  | none => rw [hfind] at hsucc; exact Bool.noConfusion hsucc
  | some t =>
    rw [hfind] at hsucc
    dsimp only at hsucc ⊢
    cases hue : s.userEmails.find? (emailValuePred t.userEmailValue) with
    | none => rw [hue] at hsucc; exact Bool.noConfusion hsucc
    | some ue =>
      rw [hue] at hsucc
      dsimp only at hsucc ⊢
      cases huser : findUserById s ue.userId with
      | none => rw [huser] at hsucc; exact Bool.noConfusion hsucc
      | some user =>
        rw [huser] at hsucc
        dsimp only at hsucc ⊢
        refine ⟨t, user, rfl, List.mem_of_find?_eq_some huser, ?_⟩
        cases hjwt : lastJwtToken (loginByTempToken s user t) user with
        | none => rfl
        | some jwt =>
          dsimp only
          cases hem : mainEmail (loginByTempToken s user t) user with
          | none => rfl
          | some em => rfl

/-- A successful login leaves the used token id consumed. -/
theorem login_success_consumed (key : String) (s : Store) (reqId email : String) (tid : Nat)
    (hwf : WF s) (hsucc : (login key s reqId email tid).res.isOk = true) :
    Consumed (login key s reqId email tid).store tid := by
  obtain ⟨t, user, hfind, hm, hstore⟩ := login_success_shape key s reqId email tid hsucc
  have hpred := List.find?_some hfind
  have htmem := List.mem_of_find?_eq_some hfind
  unfold loginPred at hpred
  simp only [Bool.and_eq_true, decide_eq_true_eq] at hpred
  obtain ⟨⟨hid, hunused⟩, -⟩ := hpred
  rw [hstore]
  unfold loginByTempToken
  constructor
  · dsimp only
    have := hwf.2.2.1 t htmem
    omega
  · dsimp only
    intro x hx hxid
    obtain ⟨y, hy, hfy⟩ := List.mem_map.mp hx
    by_cases hc : y.id = t.id
    · rw [if_pos hc] at hfy; subst hfy; rfl
    · rw [if_neg hc] at hfy; subst hfy
      exact absurd (hxid.trans hid.symm) hc

/-- Against a store in which the token id is consumed, login fails with the
generic invalid-token error. -/
theorem consumed_login_fails (key : String) (s : Store) (reqId email : String) (tid : Nat)
    (h : Consumed s tid) :
    (login key s reqId email tid).res = Except.error AppError.invalidTokenError := by
  have hnone : s.tempTokens.find? (loginPred s email tid) = none := by
    rw [List.find?_eq_none]
    intro x hx
    unfold loginPred
    simp only [Bool.and_eq_true, decide_eq_true_eq, not_and]
    rintro ⟨h1, h2⟩
    have := h.2 x hx h1
    rw [this] at h2
    cases h2
  unfold login
  rw [hnone]

/-- Claim C1 (one-time use): once a login supplying token id `tid` has
succeeded, the id is consumed in the resulting store; in every store
reachable from there by any sequence of operations the id stays consumed
(the `used = false → true` transition is never reversed), and every
subsequent login call supplying `tid` fails with the invalid-token error. -/
theorem tempToken_one_time_use (key : String) (s : Store) (reqId email : String) (tid : Nat)
    (hwf : WF s) (hsucc : (login key s reqId email tid).res.isOk = true) :
    Consumed (login key s reqId email tid).store tid ∧
    ∀ s2, Reachable (login key s reqId email tid).store s2 →
      Consumed s2 tid ∧
      ∀ key2 reqId2 email2,
        (login key2 s2 reqId2 email2 tid).res = Except.error AppError.invalidTokenError := by
  have h1 := login_success_consumed key s reqId email tid hwf hsucc
  refine ⟨h1, fun s2 hr => ?_⟩
  have h2 := reachable_consumed tid h1 hr
  exact ⟨h2, fun key2 reqId2 email2 => consumed_login_fails key2 s2 reqId2 email2 tid h2⟩

/-- Witness for C1: in the store produced by registering `a@x.com` (one
user, one main email, one unused token with id 1), the login with token id 1
succeeds, and the claim's conclusion holds for it. -/
theorem tempToken_one_time_use_witness :
    WF { users := [{ id := 0 }]
         userEmails := [{ value := "a@x.com", main := true, userId := 0 }]
         tempTokens := [{ id := 1, used := false, userEmailValue := "a@x.com" }]
         jwtTokens := []
         nextId := 2 } ∧
    (login "k"
      { users := [{ id := 0 }]
        userEmails := [{ value := "a@x.com", main := true, userId := 0 }]
        tempTokens := [{ id := 1, used := false, userEmailValue := "a@x.com" }]
        jwtTokens := []
        nextId := 2 } "rq2" "a@x.com" 1).res.isOk = true ∧
    (Consumed (login "k"
      { users := [{ id := 0 }]
        userEmails := [{ value := "a@x.com", main := true, userId := 0 }]
        tempTokens := [{ id := 1, used := false, userEmailValue := "a@x.com" }]
        jwtTokens := []
        nextId := 2 } "rq2" "a@x.com" 1).store 1 ∧
    ∀ s2, Reachable (login "k"
      { users := [{ id := 0 }]
        userEmails := [{ value := "a@x.com", main := true, userId := 0 }]
        tempTokens := [{ id := 1, used := false, userEmailValue := "a@x.com" }]
        jwtTokens := []
        nextId := 2 } "rq2" "a@x.com" 1).store s2 →
      Consumed s2 1 ∧
      ∀ key2 reqId2 email2,
        (login key2 s2 reqId2 email2 1).res = Except.error AppError.invalidTokenError) :=
  ⟨by unfold WF; decide, by decide, tempToken_one_time_use "k" _ "rq2" "a@x.com" 1 (by unfold WF; decide) (by decide)⟩

/-- A register call that returned the success envelope saw the email as not
yet existing. -/
theorem register_success_check (sender : EmailSender) (s : Store) (reqId email : String)
    (hsucc : (register sender s reqId email).res.isOk = true) :
    checkEmailExist s email = false := by
  by_cases hc : checkEmailExist s email = true
  · unfold register at hsucc
    rw [if_pos hc] at hsucc
    exact Bool.noConfusion hsucc
  · rw [Bool.not_eq_true] at hc
    exact hc

/-- Once the existence check passes, the store after `register` is the
`registerUser` store, whatever else happens. -/
theorem register_store_after_check (sender : EmailSender) (s : Store) (reqId email : String)
    (hc : checkEmailExist s email = false) :
    (register sender s reqId email).store = (registerUser s email).1 := by
  unfold register
  rw [if_neg (by rw [hc]; exact Bool.noConfusion)]
  dsimp only
  split
  · split
    · rfl
    · rfl
  · rfl

/-- A register call against a store that already holds the email value fails
with the conflict error and changes nothing. -/
theorem emailExists_register_conflict (sender : EmailSender) (s : Store) (reqId email : String)
    (h : EmailExists s email) :
    register sender s reqId email =
      { res := Except.error AppError.conflictError, store := s, sent := [] } := by
  have hc : checkEmailExist s email = true := by
    unfold checkEmailExist
    rw [List.any_eq_true]
    obtain ⟨e, hm, hv⟩ := h
    exact ⟨e, hm, by simp [hv]⟩
  unfold register
  rw [if_pos hc]

/-- Claim C7 (registration uniqueness): once `register(email)` has succeeded,
every subsequent `register(email)` call — against the resulting store or any
store reachable from it by further operations — fails with the conflict
error, leaving the store untouched and sending nothing. -/
theorem register_unique (sender : EmailSender) (s : Store) (reqId email : String)
    (hsucc : (register sender s reqId email).res.isOk = true) :
    ∀ s2, Reachable (register sender s reqId email).store s2 →
      ∀ sender2 reqId2, register sender2 s2 reqId2 email =
        { res := Except.error AppError.conflictError, store := s2, sent := [] } := by
  have hc := register_success_check sender s reqId email hsucc
  have hstore := register_store_after_check sender s reqId email hc
  intro s2 hr sender2 reqId2
  have hex : EmailExists (register sender s reqId email).store email := by
    rw [hstore]
    exact ⟨{ value := email, main := true, userId := s.nextId },
      List.mem_append.mpr (Or.inr (List.mem_singleton.mpr rfl)), rfl⟩
  exact emailExists_register_conflict sender2 s2 reqId2 email
    (reachable_emailExists email hex hr)

/-- Witness for C7: registering `a@x.com` into the empty store succeeds, and
the claim's conclusion holds for it. -/
theorem register_unique_witness :
    ((register { ok := fun _ _ => true }
        { users := [], userEmails := [], tempTokens := [], jwtTokens := [], nextId := 0 }
        "rq1" "a@x.com").res.isOk = true ∧
    ∀ s2, Reachable (register { ok := fun _ _ => true }
        { users := [], userEmails := [], tempTokens := [], jwtTokens := [], nextId := 0 }
        "rq1" "a@x.com").store s2 →
      ∀ sender2 reqId2, register sender2 s2 reqId2 "a@x.com" =
        { res := Except.error AppError.conflictError, store := s2, sent := [] }) :=
  ⟨by decide, register_unique { ok := fun _ _ => true } _ "rq1" "a@x.com" (by decide)⟩

/-- If the last element of a concatenation satisfies the filter, it is the
last element of the filtered list. -/
theorem getLast?_filter_concat {α : Type} (l : List α) (a : α) (p : α → Bool) (h : p a = true) :
    ((l ++ [a]).filter p).getLast? = some a := by
  rw [List.filter_append]
  have hs : [a].filter p = [a] := by simp [h]
  rw [hs, List.getLast?_concat]

/-- In a well-formed store, the freshly registered user owns exactly the one
new main email row. -/
theorem userEmailsOf_registerUser (s : Store) (email : String) (hwf : WF s) :
    userEmailsOf (registerUser s email).1 (registerUser s email).2 =
      [{ value := email, main := true, userId := s.nextId }] := by
  unfold userEmailsOf registerUser
  dsimp only
  rw [List.filter_append]
  have h1 : s.userEmails.filter (fun e => decide (e.userId = s.nextId)) = [] := by
    rw [List.filter_eq_nil_iff]
    intro e he
    have := hwf.2.1 e he
    simp only [decide_eq_true_eq]
    omega
  rw [h1]
  simp

/-- In a well-formed store, the freshly registered user's main email is the
new row. -/
theorem mainEmail_registerUser (s : Store) (email : String) (hwf : WF s) :
    mainEmail (registerUser s email).1 (registerUser s email).2 =
      some { value := email, main := true, userId := s.nextId } := by
  unfold mainEmail
  rw [userEmailsOf_registerUser s email hwf]
  rfl

/-- The freshly registered user's latest temp token is the new row. -/
theorem lastTempToken_registerUser (s : Store) (email : String) :
    lastTempToken (registerUser s email).1 (registerUser s email).2 =
      some { id := s.nextId + 1, used := false, userEmailValue := email } := by
  unfold lastTempToken
  show ((s.tempTokens ++
      [({ id := s.nextId + 1, used := false, userEmailValue := email } : TempTokenRec)]).filter _).getLast? = _
  apply getLast?_filter_concat
  rw [List.any_eq_true]
  refine ⟨{ value := email, main := true, userId := s.nextId }, ?_, by simp⟩
  unfold userEmailsOf registerUser
  dsimp only
  rw [List.mem_filter]
  exact ⟨List.mem_append.mpr (Or.inr (List.mem_singleton.mpr rfl)), by simp⟩

/-- Full evaluation of a successful `register` call: the returned envelope is
the bare request id and the one outbound mail names the fresh token id. -/
theorem register_success_eval (sender : EmailSender) (s : Store) (reqId email : String)
    (hwf : WF s) (hfree : checkEmailExist s email = false)
    (hsend : sender.ok ("Your token is " ++ toString (s.nextId + 1)) email = true) :
    register sender s reqId email =
      { res := Except.ok { requestId := reqId }
        store := (registerUser s email).1
        sent := [{ message := "Your token is " ++ toString (s.nextId + 1), address := email }] } := by
  unfold register
  rw [if_neg (by rw [hfree]; exact Bool.noConfusion)]
  dsimp only
  rw [lastTempToken_registerUser s email, mainEmail_registerUser s email hwf]
  dsimp only
  rw [if_pos hsend]

/-- A register call that returned the success envelope had its mail
delivered: the sender accepted the token message. -/
theorem register_success_sender (sender : EmailSender) (s : Store) (reqId email : String)
    (hwf : WF s) (hsucc : (register sender s reqId email).res.isOk = true) :
    sender.ok ("Your token is " ++ toString (s.nextId + 1)) email = true := by
  have hfree := register_success_check sender s reqId email hsucc
  unfold register at hsucc
  rw [if_neg (by rw [hfree]; exact Bool.noConfusion)] at hsucc
  dsimp only at hsucc
  rw [lastTempToken_registerUser s email, mainEmail_registerUser s email hwf] at hsucc
  dsimp only at hsucc
  by_cases hs : sender.ok ("Your token is " ++ toString (s.nextId + 1)) email = true
  · exact hs
  · rw [if_neg hs] at hsucc
    exact Bool.noConfusion hsucc

/-- Claim C8 (bare acknowledgment): a successful `register` returns exactly
the success envelope holding the request id — the issued token's id appears
only in the message handed to the email collaborator, which names a token
that now exists unused in the store. -/
theorem register_response_bare (sender : EmailSender) (s : Store) (reqId email : String)
    (hwf : WF s) (hsucc : (register sender s reqId email).res.isOk = true) :
    ∃ tid,
      (register sender s reqId email).res = Except.ok { requestId := reqId } ∧
      (register sender s reqId email).sent =
        [{ message := "Your token is " ++ toString tid, address := email }] ∧
      ∃ t ∈ (register sender s reqId email).store.tempTokens,
        t.id = tid ∧ t.used = false := by
  have hfree := register_success_check sender s reqId email hsucc
  have hsend := register_success_sender sender s reqId email hwf hsucc
  have heval := register_success_eval sender s reqId email hwf hfree hsend
  refine ⟨s.nextId + 1, ?_, ?_, ?_⟩
  · rw [heval]
  · rw [heval]
  · rw [heval]
    exact ⟨{ id := s.nextId + 1, used := false, userEmailValue := email },
      List.mem_append.mpr (Or.inr (List.mem_singleton.mpr rfl)), rfl, rfl⟩

/-- Witness for C8: registering `a@x.com` into the empty store. -/
theorem register_response_bare_witness :
    (WF { users := [], userEmails := [], tempTokens := [], jwtTokens := [], nextId := 0 } ∧
    (register { ok := fun _ _ => true }
        { users := [], userEmails := [], tempTokens := [], jwtTokens := [], nextId := 0 }
        "rq1" "a@x.com").res.isOk = true ∧
    ∃ tid,
      (register { ok := fun _ _ => true }
        { users := [], userEmails := [], tempTokens := [], jwtTokens := [], nextId := 0 }
        "rq1" "a@x.com").res = Except.ok { requestId := "rq1" } ∧
      (register { ok := fun _ _ => true }
        { users := [], userEmails := [], tempTokens := [], jwtTokens := [], nextId := 0 }
        "rq1" "a@x.com").sent =
        [{ message := "Your token is " ++ toString tid, address := "a@x.com" }] ∧
      ∃ t ∈ (register { ok := fun _ _ => true }
        { users := [], userEmails := [], tempTokens := [], jwtTokens := [], nextId := 0 }
        "rq1" "a@x.com").store.tempTokens,
        t.id = tid ∧ t.used = false) :=
  ⟨by unfold WF; decide, by decide,
    register_response_bare { ok := fun _ _ => true } _ "rq1" "a@x.com"
      (by unfold WF; decide) (by decide)⟩

/-- `mainEmail` reads only the email rows. -/
theorem mainEmail_congr (s1 s2 : Store) (u : UserRec) (h : s1.userEmails = s2.userEmails) :
    mainEmail s1 u = mainEmail s2 u := by
  unfold mainEmail userEmailsOf
  rw [h]

/-- After registering a fresh email, logging in with that email and the
fresh token id succeeds. -/
theorem login_after_fresh_register (key : String) (s : Store) (reqId2 email : String)
    (hwf : WF s) (hfree : checkEmailExist s email = false) :
    (login key (registerUser s email).1 reqId2 email (s.nextId + 1)).res.isOk = true := by
  have hpnew : loginPred (registerUser s email).1 email (s.nextId + 1)
      { id := s.nextId + 1, used := false, userEmailValue := email } = true := by
    unfold loginPred
    simp only [Bool.and_eq_true, decide_eq_true_eq]
    refine ⟨by simp, ?_⟩
    rw [List.any_eq_true]
    refine ⟨{ value := email, main := true, userId := s.nextId }, ?_, by simp⟩
    show _ ∈ s.userEmails ++ [({ value := email, main := true, userId := s.nextId } : UserEmailRec)]
    exact List.mem_append.mpr (Or.inr (List.mem_singleton.mpr rfl))
  have hold : s.tempTokens.find? (loginPred (registerUser s email).1 email (s.nextId + 1)) = none := by
    rw [List.find?_eq_none]
    intro x hx
    unfold loginPred
    simp only [Bool.and_eq_true, decide_eq_true_eq]
    intro hcon
    obtain ⟨⟨h1, -⟩, -⟩ := hcon
    have := hwf.2.2.1 x hx
    omega
  have hfind : (registerUser s email).1.tempTokens.find?
      (loginPred (registerUser s email).1 email (s.nextId + 1)) =
      some { id := s.nextId + 1, used := false, userEmailValue := email } := by
    show (s.tempTokens ++
        [({ id := s.nextId + 1, used := false, userEmailValue := email } : TempTokenRec)]).find? _ = _
    rw [List.find?_append, hold, Option.none_or]
    exact List.find?_cons_of_pos _ hpnew
  have hue : (registerUser s email).1.userEmails.find? (emailValuePred email) =
      some { value := email, main := true, userId := s.nextId } := by
    show (s.userEmails ++
        [({ value := email, main := true, userId := s.nextId } : UserEmailRec)]).find? _ = _
    have hnone : s.userEmails.find? (emailValuePred email) = none := by
      rw [List.find?_eq_none]
      intro e he
      unfold emailValuePred
      simp only [decide_eq_true_eq]
      intro hv
      have hex : checkEmailExist s email = true := by
        unfold checkEmailExist
        rw [List.any_eq_true]
        exact ⟨e, he, by simp [hv]⟩
      rw [hfree] at hex
      exact Bool.noConfusion hex
    rw [List.find?_append, hnone, Option.none_or]
    apply List.find?_cons_of_pos
    unfold emailValuePred
    simp
  have huser : findUserById (registerUser s email).1 s.nextId = some { id := s.nextId } := by
    unfold findUserById
    show (s.users ++ [({ id := s.nextId } : UserRec)]).find? _ = _
    have hnone : s.users.find? (fun u => decide (u.id = s.nextId)) = none := by
      rw [List.find?_eq_none]
      intro u hu
      simp only [decide_eq_true_eq]
      have := hwf.1 u hu
      omega
    rw [List.find?_append, hnone, Option.none_or]
    apply List.find?_cons_of_pos
    simp
  unfold login
  rw [hfind]
  dsimp only
  rw [hue]
  dsimp only
  rw [huser]
  dsimp only
  have hjwt : lastJwtToken
      (loginByTempToken (registerUser s email).1 { id := s.nextId }
        { id := s.nextId + 1, used := false, userEmailValue := email })
      { id := s.nextId } =
      some { id := (registerUser s email).1.nextId, active := true, userId := s.nextId } := by
    unfold lastJwtToken loginByTempToken
    dsimp only
    apply getLast?_filter_concat
    simp
  rw [hjwt]
  dsimp only
  have hem : mainEmail
      (loginByTempToken (registerUser s email).1 { id := s.nextId }
        { id := s.nextId + 1, used := false, userEmailValue := email })
      { id := s.nextId } =
      some { value := email, main := true, userId := s.nextId } := by
    have hc : mainEmail
        (loginByTempToken (registerUser s email).1 { id := s.nextId }
          { id := s.nextId + 1, used := false, userEmailValue := email })
        { id := s.nextId } = mainEmail (registerUser s email).1 { id := s.nextId } :=
      mainEmail_congr _ _ _ rfl
    rw [hc]
    exact mainEmail_registerUser s email hwf
  rw [hem]
  rfl

/-- Claim C9 (delivery failure does not roll back): when the email-send step
fails after the user and token were created, `register` surfaces the
delivery error — an error kind distinct from the login-flow errors — the
token rows stay in the store, and the unused token still logs in. -/
theorem register_delivery_failure_token_valid (sender : EmailSender) (s : Store)
    (reqId email : String) (hwf : WF s)
    (hfree : checkEmailExist s email = false)
    (hfail : ∀ m a, sender.ok m a = false) :
    (register sender s reqId email).res = Except.error AppError.deliveryError ∧
    AppError.deliveryError ≠ AppError.invalidTokenError ∧
    AppError.deliveryError ≠ AppError.conflictError ∧
    ∃ t ∈ (register sender s reqId email).store.tempTokens,
      t.used = false ∧
      ∀ key reqId2,
        (login key (register sender s reqId email).store reqId2 email t.id).res.isOk = true := by
  have hstore := register_store_after_check sender s reqId email hfree
  refine ⟨?_, by simp, by simp, ?_⟩
  · unfold register
    rw [if_neg (by rw [hfree]; exact Bool.noConfusion)]
    dsimp only
    rw [lastTempToken_registerUser s email, mainEmail_registerUser s email hwf]
    dsimp only
    rw [if_neg (by rw [hfail]; exact Bool.noConfusion)]
  · refine ⟨{ id := s.nextId + 1, used := false, userEmailValue := email }, ?_, rfl, ?_⟩
    · rw [hstore]
      exact List.mem_append.mpr (Or.inr (List.mem_singleton.mpr rfl))
    · intro key reqId2
      rw [hstore]
      exact login_after_fresh_register key s reqId2 email hwf hfree

/-- Witness for C9: a sender that always fails, against the empty store. -/
theorem register_delivery_failure_token_valid_witness :
    (WF { users := [], userEmails := [], tempTokens := [], jwtTokens := [], nextId := 0 } ∧
    checkEmailExist
      { users := [], userEmails := [], tempTokens := [], jwtTokens := [], nextId := 0 }
      "a@x.com" = false ∧
    (∀ m a, ({ ok := fun _ _ => false } : EmailSender).ok m a = false) ∧
    ((register { ok := fun _ _ => false }
        { users := [], userEmails := [], tempTokens := [], jwtTokens := [], nextId := 0 }
        "rq1" "a@x.com").res = Except.error AppError.deliveryError ∧
    AppError.deliveryError ≠ AppError.invalidTokenError ∧
    AppError.deliveryError ≠ AppError.conflictError ∧
    ∃ t ∈ (register { ok := fun _ _ => false }
        { users := [], userEmails := [], tempTokens := [], jwtTokens := [], nextId := 0 }
        "rq1" "a@x.com").store.tempTokens,
      t.used = false ∧
      ∀ key reqId2,
        (login key (register { ok := fun _ _ => false }
          { users := [], userEmails := [], tempTokens := [], jwtTokens := [], nextId := 0 }
          "rq1" "a@x.com").store reqId2 "a@x.com" t.id).res.isOk = true)) :=
  ⟨by unfold WF; decide, by decide, fun _ _ => rfl,
    register_delivery_failure_token_valid { ok := fun _ _ => false } _ "rq1" "a@x.com"
      (by unfold WF; decide) (by decide) (fun _ _ => rfl)⟩

/-- Helper: when no email row is a main email with the requested value,
`requestToken` is the success envelope with no store change and no mail. -/
theorem requestToken_no_main_email (sender : EmailSender) (s : Store) (reqId email : String)
    (h : ∀ ue ∈ s.userEmails, ¬(ue.main = true ∧ ue.value = email)) :
    requestToken sender s reqId email =
      { res := Except.ok { requestId := reqId }, store := s, sent := [] } := by
  have hnone : s.userEmails.find? (mainEmailValuePred email) = none := by
    rw [List.find?_eq_none]
    intro e he
    unfold mainEmailValuePred
    simp only [Bool.and_eq_true, decide_eq_true_eq]
    exact h e he
  unfold requestToken
  rw [hnone]

/-- Claim C6 (frame effect of an unknown email): when no email row is a main
email with the requested value, `requestToken` returns the success envelope
and does nothing else — the store is exactly unchanged and no mail is
handed to the email collaborator. -/
theorem requestToken_unknown_noop (sender : EmailSender) (s : Store) (reqId email : String)
    (h : ∀ ue ∈ s.userEmails, ¬(ue.main = true ∧ ue.value = email)) :
    requestToken sender s reqId email =
      { res := Except.ok { requestId := reqId }, store := s, sent := [] } :=
  requestToken_no_main_email sender s reqId email h

/-- Witness for C6: a store holding an account for `b@x.com`, queried with
`unknown@x.com`. -/
theorem requestToken_unknown_noop_witness :
    ((∀ ue ∈ ({ users := [{ id := 0 }]
                userEmails := [{ value := "b@x.com", main := true, userId := 0 }]
                tempTokens := [], jwtTokens := [], nextId := 1 } : Store).userEmails,
      ¬(ue.main = true ∧ ue.value = "unknown@x.com")) ∧
    requestToken { ok := fun _ _ => true }
      { users := [{ id := 0 }]
        userEmails := [{ value := "b@x.com", main := true, userId := 0 }]
        tempTokens := [], jwtTokens := [], nextId := 1 } "rq1" "unknown@x.com" =
      { res := Except.ok { requestId := "rq1" }
        store :=
          { users := [{ id := 0 }]
            userEmails := [{ value := "b@x.com", main := true, userId := 0 }]
            tempTokens := [], jwtTokens := [], nextId := 1 }
        sent := [] }) :=
  ⟨by decide, requestToken_unknown_noop { ok := fun _ _ => true } _ "rq1" "unknown@x.com" (by decide)⟩

/-- Full evaluation of `requestToken` for a registered main email against a
well-formed store with a sender that accepts every message: the success
envelope is returned. -/
theorem requestToken_known_success (sender : EmailSender) (s : Store) (reqId email : String)
    (hwf : WF s) (hsend : ∀ m a, sender.ok m a = true)
    (h1 : ∃ ue ∈ s.userEmails, ue.main = true ∧ ue.value = email) :
    (requestToken sender s reqId email).res = Except.ok { requestId := reqId } := by
  have hsome : (s.userEmails.find? (mainEmailValuePred email)).isSome := by
    rw [List.find?_isSome]
    obtain ⟨ue, hm, hmain, hval⟩ := h1
    refine ⟨ue, hm, ?_⟩
    unfold mainEmailValuePred
    simp [hmain, hval]
  obtain ⟨ue, hue⟩ := Option.isSome_iff_exists.mp hsome
  have huep := List.find?_some hue
  have huem := List.mem_of_find?_eq_some hue
  unfold mainEmailValuePred at huep
  simp only [Bool.and_eq_true, decide_eq_true_eq] at huep
  obtain ⟨huemain, hueval⟩ := huep
  obtain ⟨u0, hu0m, hu0id⟩ := hwf.2.2.2.2 ue huem
  have husome : (findUserById s ue.userId).isSome := by
    unfold findUserById
    rw [List.find?_isSome]
    exact ⟨u0, hu0m, by simp [hu0id]⟩
  obtain ⟨user, huser⟩ := Option.isSome_iff_exists.mp husome
  have huser2 := huser
  unfold findUserById at huser2
  have huserp := List.find?_some huser2
  simp only [decide_eq_true_eq] at huserp
  have hmsome : (mainEmail s user).isSome := by
    unfold mainEmail userEmailsOf
    rw [List.find?_isSome]
    refine ⟨ue, ?_, by simp [huemain]⟩
    rw [List.mem_filter]
    exact ⟨huem, by simp [huserp]⟩
  obtain ⟨em, hem⟩ := Option.isSome_iff_exists.mp hmsome
  have hem2 := hem
  unfold mainEmail at hem2
  have hemmem := List.mem_of_find?_eq_some hem2
  have hcreate : createNewToken s user =
      { s with
        tempTokens := s.tempTokens ++ [{ id := s.nextId, used := false, userEmailValue := em.value }]
        nextId := s.nextId + 1 } := by
    unfold createNewToken
    rw [hem]
  have hlast : lastTempToken (createNewToken s user) user =
      some { id := s.nextId, used := false, userEmailValue := em.value } := by
    rw [hcreate]
    unfold lastTempToken
    dsimp only
    apply getLast?_filter_concat
    rw [List.any_eq_true]
    exact ⟨em, hemmem, by simp⟩
  have hm2 : mainEmail (createNewToken s user) user = some em := by
    rw [hcreate]
    exact (mainEmail_congr _ s user rfl).trans hem
  unfold requestToken
  rw [hue]
  dsimp only
  rw [huser]
  dsimp only
  rw [hlast]
  dsimp only
  rw [hm2]
  dsimp only
  rw [hsend, if_pos rfl]

/-- Claim C5 (enumeration safety): for a registered main email `e1` and an
unregistered email `e2`, the two `requestToken` calls return the identical
success envelope — the response does not reveal whether the email has an
account. -/
theorem requestToken_enumeration_safe (sender : EmailSender) (s : Store) (reqId e1 e2 : String)
    (hwf : WF s) (hsend : ∀ m a, sender.ok m a = true)
    (h1 : ∃ ue ∈ s.userEmails, ue.main = true ∧ ue.value = e1)
    (h2 : ∀ ue ∈ s.userEmails, ue.value ≠ e2) :
    (requestToken sender s reqId e1).res = Except.ok { requestId := reqId } ∧
    (requestToken sender s reqId e2).res = Except.ok { requestId := reqId } := by
  refine ⟨requestToken_known_success sender s reqId e1 hwf hsend h1, ?_⟩
  have h3 := requestToken_no_main_email sender s reqId e2 (fun ue hm hc => h2 ue hm hc.2)
  rw [h3]

/-- Witness for C5: the store holding the registered account for `a@x.com`,
probed with `a@x.com` and with `unknown@x.com`. -/
theorem requestToken_enumeration_safe_witness :
    (WF { users := [{ id := 0 }]
          userEmails := [{ value := "a@x.com", main := true, userId := 0 }]
          tempTokens := [{ id := 1, used := false, userEmailValue := "a@x.com" }]
          jwtTokens := [], nextId := 2 } ∧
    (∀ m a, ({ ok := fun _ _ => true } : EmailSender).ok m a = true) ∧
    (∃ ue ∈ ({ users := [{ id := 0 }]
               userEmails := [{ value := "a@x.com", main := true, userId := 0 }]
               tempTokens := [{ id := 1, used := false, userEmailValue := "a@x.com" }]
               jwtTokens := [], nextId := 2 } : Store).userEmails,
        ue.main = true ∧ ue.value = "a@x.com") ∧
    (∀ ue ∈ ({ users := [{ id := 0 }]
               userEmails := [{ value := "a@x.com", main := true, userId := 0 }]
               tempTokens := [{ id := 1, used := false, userEmailValue := "a@x.com" }]
               jwtTokens := [], nextId := 2 } : Store).userEmails,
        ue.value ≠ "unknown@x.com") ∧
    ((requestToken { ok := fun _ _ => true }
        { users := [{ id := 0 }]
          userEmails := [{ value := "a@x.com", main := true, userId := 0 }]
          tempTokens := [{ id := 1, used := false, userEmailValue := "a@x.com" }]
          jwtTokens := [], nextId := 2 } "rq1" "a@x.com").res =
        Except.ok { requestId := "rq1" } ∧
      (requestToken { ok := fun _ _ => true }
        { users := [{ id := 0 }]
          userEmails := [{ value := "a@x.com", main := true, userId := 0 }]
          tempTokens := [{ id := 1, used := false, userEmailValue := "a@x.com" }]
          jwtTokens := [], nextId := 2 } "rq1" "unknown@x.com").res =
        Except.ok { requestId := "rq1" })) :=
  ⟨by unfold WF; decide, fun _ _ => rfl, by decide, by decide,
    requestToken_enumeration_safe { ok := fun _ _ => true } _ "rq1" "a@x.com" "unknown@x.com"
      (by unfold WF; decide) (fun _ _ => rfl) (by decide) (by decide)⟩

/-- Claim C10 (allow-list is a substring match): whenever the request URL
contains `documentation` or `health` anywhere as a substring, the hook
returns before any check runs — the request proceeds unauthenticated with
no `userId` annotation, whatever the Authorization header holds. -/
theorem gate_allowlist_substring_bypass (secret : String) (s : Store) (url : String)
    (header : Option AuthHeaderVal)
    (h : urlIncludes url "documentation" = true ∨ urlIncludes url "health" = true) :
    authHook secret s url header = Except.ok none := by
  have hc : (urlIncludes url "documentation" || urlIncludes url "health") = true := by
    rcases h with h | h <;> simp [h]
  unfold authHook
  rw [hc, if_pos rfl]

/-- Witness for C10: the protected-looking path `/user/health-status`
bypasses the gate even with no Authorization header at all. -/
theorem gate_allowlist_substring_bypass_witness :
    ((urlIncludes "/user/health-status" "documentation" = true ∨
      urlIncludes "/user/health-status" "health" = true) ∧
    authHook "k"
      { users := [], userEmails := [], tempTokens := [], jwtTokens := [], nextId := 0 }
      "/user/health-status" none = Except.ok none) :=
  ⟨by decide,
    gate_allowlist_substring_bypass "k" _ "/user/health-status" none (by decide)⟩

/-- Counterexample to claim C3 as stated: a bearer token signed with the
wrong key reaches `JWTToken.verify`, whose failure the hook does not catch;
the request is rejected with the verifier's invalid-signature error, an
observably different error from the permission-denied error produced by the
other three failure modes. -/
theorem gate_sig_failure_error_distinct :
    authHook "k" { users := [], userEmails := [], tempTokens := [], jwtTokens := [], nextId := 0 }
        "/user/me"
        (some (AuthHeaderVal.bearer (TokenStr.signed "wrong"
          { id := 0, userId := 0, userEmail := "a@x.com" }))) =
      Except.error AppError.invalidSignature ∧
    AppError.invalidSignature ≠ AppError.permissionDeniedError :=
  ⟨rfl, by decide⟩

/-- Claim C3 as amended: on a non-allow-listed URL, a missing header, a
header without a bearer token, a claimed user that does not exist, and an
absent or inactive credential are all rejected with the same
permission-denied error; a token that fails signature verification
(malformed, or signed with another key) is instead rejected with the
verifier's own invalid-signature error, which the hook propagates
uncaught. -/
theorem gate_failure_modes (secret : String) (s : Store) (url : String)
    (hurl : (urlIncludes url "documentation" || urlIncludes url "health") = false) :
    (authHook secret s url none = Except.error AppError.permissionDeniedError) ∧
    (∀ raw, authHook secret s url (some (AuthHeaderVal.noBearer raw)) =
      Except.error AppError.permissionDeniedError) ∧
    (∀ raw, authHook secret s url (some (AuthHeaderVal.bearer (TokenStr.garbage raw))) =
      Except.error AppError.invalidSignature) ∧
    (∀ k c, k ≠ secret →
      authHook secret s url (some (AuthHeaderVal.bearer (TokenStr.signed k c))) =
        Except.error AppError.invalidSignature) ∧
    (∀ c, findUserById s c.userId = none →
      authHook secret s url (some (AuthHeaderVal.bearer (TokenStr.signed secret c))) =
        Except.error AppError.permissionDeniedError) ∧
    (∀ c user, findUserById s c.userId = some user → jwtTokenById s user c.id = none →
      authHook secret s url (some (AuthHeaderVal.bearer (TokenStr.signed secret c))) =
        Except.error AppError.permissionDeniedError) ∧
    (∀ c user j, findUserById s c.userId = some user → jwtTokenById s user c.id = some j →
      j.active = false →
      authHook secret s url (some (AuthHeaderVal.bearer (TokenStr.signed secret c))) =
        Except.error AppError.permissionDeniedError) := by
  refine ⟨?_, ?_, ?_, ?_, ?_, ?_, ?_⟩
  · simp [authHook, hurl]
  · intro raw
    simp [authHook, hurl, extractBearer]
  · intro raw
    simp [authHook, hurl, extractBearer, verifyToken]
  · intro k c hk
    simp [authHook, hurl, extractBearer, verifyToken, hk]
  · intro c hfind
    simp [authHook, hurl, extractBearer, verifyToken, hfind]
  · intro c user hfind hjw
    simp [authHook, hurl, extractBearer, verifyToken, hfind, hjw]
  · intro c user j hfind hjw hact
    simp [authHook, hurl, extractBearer, verifyToken, hfind, hjw, hact]

/-- Witness for the amended C3, at the URL `/user/me` with secret `k` and
the empty store. -/
theorem gate_failure_modes_witness :
    ((urlIncludes "/user/me" "documentation" || urlIncludes "/user/me" "health") = false ∧
    ((authHook "k" { users := [], userEmails := [], tempTokens := [], jwtTokens := [], nextId := 0 }
        "/user/me" none = Except.error AppError.permissionDeniedError) ∧
    (∀ raw, authHook "k"
        { users := [], userEmails := [], tempTokens := [], jwtTokens := [], nextId := 0 }
        "/user/me" (some (AuthHeaderVal.noBearer raw)) =
      Except.error AppError.permissionDeniedError) ∧
    (∀ raw, authHook "k"
        { users := [], userEmails := [], tempTokens := [], jwtTokens := [], nextId := 0 }
        "/user/me" (some (AuthHeaderVal.bearer (TokenStr.garbage raw))) =
      Except.error AppError.invalidSignature) ∧
    (∀ k c, k ≠ "k" →
      authHook "k" { users := [], userEmails := [], tempTokens := [], jwtTokens := [], nextId := 0 }
          "/user/me" (some (AuthHeaderVal.bearer (TokenStr.signed k c))) =
        Except.error AppError.invalidSignature) ∧
    (∀ c, findUserById
        { users := [], userEmails := [], tempTokens := [], jwtTokens := [], nextId := 0 }
        c.userId = none →
      authHook "k" { users := [], userEmails := [], tempTokens := [], jwtTokens := [], nextId := 0 }
          "/user/me" (some (AuthHeaderVal.bearer (TokenStr.signed "k" c))) =
        Except.error AppError.permissionDeniedError) ∧
    (∀ c user, findUserById
        { users := [], userEmails := [], tempTokens := [], jwtTokens := [], nextId := 0 }
        c.userId = some user →
      jwtTokenById
        { users := [], userEmails := [], tempTokens := [], jwtTokens := [], nextId := 0 }
        user c.id = none →
      authHook "k" { users := [], userEmails := [], tempTokens := [], jwtTokens := [], nextId := 0 }
          "/user/me" (some (AuthHeaderVal.bearer (TokenStr.signed "k" c))) =
        Except.error AppError.permissionDeniedError) ∧
    (∀ c user j, findUserById
        { users := [], userEmails := [], tempTokens := [], jwtTokens := [], nextId := 0 }
        c.userId = some user →
      jwtTokenById
        { users := [], userEmails := [], tempTokens := [], jwtTokens := [], nextId := 0 }
        user c.id = some j →
      j.active = false →
      authHook "k" { users := [], userEmails := [], tempTokens := [], jwtTokens := [], nextId := 0 }
          "/user/me" (some (AuthHeaderVal.bearer (TokenStr.signed "k" c))) =
        Except.error AppError.permissionDeniedError))) :=
  ⟨by decide, gate_failure_modes "k" _ "/user/me" (by decide)⟩

/-- Counterexample to claim C2 as stated: a user holds two active session
credentials (ids 1 and 2); a logout call authenticated with credential 1
succeeds, yet credential 2 — which was not used for the call — is also
deactivated and no longer passes the gate.  The other N−1 credentials do
not remain active. -/
theorem logout_other_session_revoked :
    (protectedLogout "k"
        { users := [{ id := 0 }]
          userEmails := [{ value := "a@x.com", main := true, userId := 0 }]
          tempTokens := []
          jwtTokens := [{ id := 1, active := true, userId := 0 },
                        { id := 2, active := true, userId := 0 }]
          nextId := 3 } "rq" "/auth/logout"
        (some (AuthHeaderVal.bearer (TokenStr.signed "k"
          { id := 1, userId := 0, userEmail := "a@x.com" })))).res =
      Except.ok { requestId := "rq" } ∧
    (protectedLogout "k"
        { users := [{ id := 0 }]
          userEmails := [{ value := "a@x.com", main := true, userId := 0 }]
          tempTokens := []
          jwtTokens := [{ id := 1, active := true, userId := 0 },
                        { id := 2, active := true, userId := 0 }]
          nextId := 3 } "rq" "/auth/logout"
        (some (AuthHeaderVal.bearer (TokenStr.signed "k"
          { id := 1, userId := 0, userEmail := "a@x.com" })))).store.jwtTokens =
      [{ id := 1, active := false, userId := 0 }, { id := 2, active := false, userId := 0 }] ∧
    authHook "k"
        (protectedLogout "k"
          { users := [{ id := 0 }]
            userEmails := [{ value := "a@x.com", main := true, userId := 0 }]
            tempTokens := []
            jwtTokens := [{ id := 1, active := true, userId := 0 },
                          { id := 2, active := true, userId := 0 }]
            nextId := 3 } "rq" "/auth/logout"
          (some (AuthHeaderVal.bearer (TokenStr.signed "k"
            { id := 1, userId := 0, userEmail := "a@x.com" })))).store
        "/user/me"
        (some (AuthHeaderVal.bearer (TokenStr.signed "k"
          { id := 2, userId := 0, userEmail := "a@x.com" }))) =
      Except.error AppError.permissionDeniedError :=
  ⟨rfl, rfl, rfl⟩

/-- Claim C2 as amended: the gate hands the logout handler only the user id
— the credential id of the calling session is discarded — so `logout`
revokes at user granularity: it succeeds for any stored user and
deactivates every session credential of that user (other users' credentials
are untouched).  With N ≥ 2 active sessions the other N−1 are revoked too
rather than remaining active. -/
theorem logout_revokes_at_user_granularity (s : Store) (reqId : String) (uid : Nat)
    (user : UserRec) (hfind : findUserById s uid = some user) :
    logout s reqId (some uid) =
      { res := Except.ok { requestId := reqId }, store := userLogout s user, sent := [] } ∧
    (∀ j ∈ (userLogout s user).jwtTokens, j.userId = user.id → j.active = false) ∧
    (∀ j ∈ s.jwtTokens, j.userId ≠ user.id → j ∈ (userLogout s user).jwtTokens) := by
  refine ⟨?_, ?_, ?_⟩
  · unfold logout
    dsimp only
    rw [hfind]
  · intro j hj hju
    unfold userLogout at hj
    dsimp only at hj
    obtain ⟨y, hy, hfy⟩ := List.mem_map.mp hj
    by_cases hc : y.userId = user.id
    · rw [if_pos hc] at hfy; subst hfy; rfl
    · rw [if_neg hc] at hfy; subst hfy; exact absurd hju hc
  · intro j hj hju
    unfold userLogout
    dsimp only
    rw [List.mem_map]
    exact ⟨j, hj, by rw [if_neg hju]⟩

/-- Witness for the amended C2, at the two-credential store of the
counterexample. -/
theorem logout_revokes_at_user_granularity_witness :
    (findUserById
      { users := [{ id := 0 }]
        userEmails := [{ value := "a@x.com", main := true, userId := 0 }]
        tempTokens := []
        jwtTokens := [{ id := 1, active := true, userId := 0 },
                      { id := 2, active := true, userId := 0 }]
        nextId := 3 } 0 = some { id := 0 } ∧
    (logout
      { users := [{ id := 0 }]
        userEmails := [{ value := "a@x.com", main := true, userId := 0 }]
        tempTokens := []
        jwtTokens := [{ id := 1, active := true, userId := 0 },
                      { id := 2, active := true, userId := 0 }]
        nextId := 3 } "rq" (some 0) =
      { res := Except.ok { requestId := "rq" }
        store := userLogout
          { users := [{ id := 0 }]
            userEmails := [{ value := "a@x.com", main := true, userId := 0 }]
            tempTokens := []
            jwtTokens := [{ id := 1, active := true, userId := 0 },
                          { id := 2, active := true, userId := 0 }]
            nextId := 3 } { id := 0 }
        sent := [] } ∧
    (∀ j ∈ (userLogout
        { users := [{ id := 0 }]
          userEmails := [{ value := "a@x.com", main := true, userId := 0 }]
          tempTokens := []
          jwtTokens := [{ id := 1, active := true, userId := 0 },
                        { id := 2, active := true, userId := 0 }]
          nextId := 3 } { id := 0 }).jwtTokens, j.userId = ({ id := 0 } : UserRec).id →
      j.active = false) ∧
    (∀ j ∈ ({ users := [{ id := 0 }]
              userEmails := [{ value := "a@x.com", main := true, userId := 0 }]
              tempTokens := []
              jwtTokens := [{ id := 1, active := true, userId := 0 },
                            { id := 2, active := true, userId := 0 }]
              nextId := 3 } : Store).jwtTokens, j.userId ≠ ({ id := 0 } : UserRec).id →
      j ∈ (userLogout
        { users := [{ id := 0 }]
          userEmails := [{ value := "a@x.com", main := true, userId := 0 }]
          tempTokens := []
          jwtTokens := [{ id := 1, active := true, userId := 0 },
                        { id := 2, active := true, userId := 0 }]
          nextId := 3 } { id := 0 }).jwtTokens))) :=
  ⟨by decide, logout_revokes_at_user_granularity _ "rq" 0 { id := 0 } (by decide)⟩

/-- Inversion of a gate pass that annotated a user id: the URL was not
allow-listed, the header carried a token signed with the gate's secret, the
claimed user exists, and that user's credential with the claimed id is
active. -/
theorem authHook_ok_some (secret : String) (s : Store) (url : String)
    (header : Option AuthHeaderVal) (u0 : Nat)
    (h : authHook secret s url header = Except.ok (some u0)) :
    (urlIncludes url "documentation" || urlIncludes url "health") = false ∧
    ∃ c user j, header = some (AuthHeaderVal.bearer (TokenStr.signed secret c)) ∧
      findUserById s c.userId = some user ∧
      jwtTokenById s user c.id = some j ∧
      j.active = true ∧ u0 = user.id := by
  unfold authHook at h
  by_cases hc : (urlIncludes url "documentation" || urlIncludes url "health") = true
  · rw [if_pos hc] at h
    exact absurd h (by simp)
  · rw [Bool.not_eq_true] at hc
    rw [if_neg (by rw [hc]; exact Bool.noConfusion)] at h
    refine ⟨hc, ?_⟩
    cases header with
    | none => exact Except.noConfusion h
    | some hv =>
      dsimp only at h
      cases hv with
      | noBearer raw => exact Except.noConfusion h
      | bearer tok =>
        dsimp only [extractBearer] at h
        cases tok with
        | garbage raw => exact Except.noConfusion h
        | signed k c =>
          dsimp only [verifyToken] at h
          by_cases hk : k = secret
          · subst hk
            rw [if_pos rfl] at h
            dsimp only at h
            cases hfu : findUserById s c.userId with
            | none => rw [hfu] at h; exact Except.noConfusion h
            | some user =>
              rw [hfu] at h
              dsimp only at h
              cases hjw : jwtTokenById s user c.id with
              | none => rw [hjw] at h; exact Except.noConfusion h
              | some j =>
                rw [hjw] at h
                dsimp only at h
                by_cases hact : j.active = true
                · rw [if_pos hact] at h
                  simp only [Except.ok.injEq, Option.some.injEq] at h
                  exact ⟨c, user, j, rfl, hfu, hjw, hact, h.symm⟩
                · rw [if_neg hact] at h
                  exact Except.noConfusion h
          · rw [if_neg hk] at h
            exact Except.noConfusion h

/-- Deactivating a user's credentials maps their registry rows to inactive
copies with unchanged ids and owner. -/
theorem jwtTokenById_userLogout (s : Store) (u : UserRec) (jid : Nat) :
    jwtTokenById (userLogout s u) u jid =
      (jwtTokenById s u jid).map
        (fun x => if x.userId = u.id then { x with active := false } else x) := by
  unfold jwtTokenById userLogout
  dsimp only
  rw [List.find?_map]
  have hp : ((fun j => decide (j.userId = u.id) && decide (j.id = jid)) ∘
      (fun j => if j.userId = u.id then { j with active := false } else j)) =
      (fun j : JwtTokenRec => decide (j.userId = u.id) && decide (j.id = jid)) := by
    funext x
    simp only [Function.comp]
    by_cases hc : x.userId = u.id
    · simp [hc]
    · simp [hc]
  rw [hp]

/-- The credential id `jid` has been handed out and every registry row of
user `uid` bearing it is inactive.  This holds after the owning user's
logout and is preserved by every operation: fresh rows use fresh ids and
deactivation is never reversed. -/
def Revoked (s : Store) (uid jid : Nat) : Prop :=
  jid < s.nextId ∧ ∀ j ∈ s.jwtTokens, j.userId = uid → j.id = jid → j.active = false

/-- `registerUser` does not touch the session registry. -/
theorem revoked_registerUser (s : Store) (email : String) (uid jid : Nat)
    (h : Revoked s uid jid) : Revoked (registerUser s email).1 uid jid := by
  obtain ⟨hlt, hall⟩ := h
  unfold registerUser
  exact ⟨by dsimp only; omega, hall⟩

/-- `createNewToken` does not touch the session registry. -/
theorem revoked_createNewToken (s : Store) (u : UserRec) (uid jid : Nat)
    (h : Revoked s uid jid) : Revoked (createNewToken s u) uid jid := by
  obtain ⟨hlt, hall⟩ := h
  unfold createNewToken
  split
  · exact ⟨hlt, hall⟩
  · exact ⟨by dsimp only; omega, hall⟩

/-- `loginByTempToken` opens a session under a fresh credential id, so a
revoked id stays revoked. -/
theorem revoked_loginByTempToken (s : Store) (u : UserRec) (t : TempTokenRec) (uid jid : Nat)
    (h : Revoked s uid jid) : Revoked (loginByTempToken s u t) uid jid := by
  obtain ⟨hlt, hall⟩ := h
  unfold loginByTempToken
  refine ⟨by dsimp only; omega, ?_⟩
  dsimp only
  intro j hj hju hji
  rcases List.mem_append.mp hj with h1 | h1
  · exact hall j h1 hju hji
  · simp only [List.mem_singleton] at h1
    subst h1
    exfalso
    dsimp only at hji
    omega

/-- `userLogout` only ever sets `active` to `false`. -/
theorem revoked_userLogout (s : Store) (u : UserRec) (uid jid : Nat)
    (h : Revoked s uid jid) : Revoked (userLogout s u) uid jid := by
  obtain ⟨hlt, hall⟩ := h
  unfold userLogout
  refine ⟨hlt, ?_⟩
  dsimp only
  intro j hj hju hji
  obtain ⟨y, hy, hfy⟩ := List.mem_map.mp hj
  by_cases hc : y.userId = u.id
  · rw [if_pos hc] at hfy; subst hfy; rfl
  · rw [if_neg hc] at hfy; subst hfy; exact hall y hy hju hji

/-- No operation reactivates a revoked credential id. -/
theorem step_revoked {s s2 : Store} (uid jid : Nat) (h : Revoked s uid jid) (hs : Step s s2) :
    Revoked s2 uid jid := by
  cases hs with
  | ofRegister sender reqId email =>
    rcases register_store_cases sender s reqId email with hc | hc
    · rw [hc]; exact h
    · rw [hc]; exact revoked_registerUser s email uid jid h
  | ofRequestToken sender reqId email =>
    rcases requestToken_store_cases sender s reqId email with hc | ⟨u, hc⟩
    · rw [hc]; exact h
    · rw [hc]; exact revoked_createNewToken s u uid jid h
  | ofLogin key reqId email tid =>
    rcases login_store_cases key s reqId email tid with hc | ⟨u, t, hm, hc⟩
    · rw [hc]; exact h
    · rw [hc]; exact revoked_loginByTempToken s u t uid jid h
  | ofLogout reqId uid2 =>
    rcases logout_store_cases s reqId uid2 with hc | ⟨u, hc⟩
    · rw [hc]; exact h
    · rw [hc]; exact revoked_userLogout s u uid jid h

/-- A revoked credential id stays revoked in every reachable store. -/
theorem reachable_revoked {s s2 : Store} (uid jid : Nat) (h : Revoked s uid jid)
    (hr : Reachable s s2) : Revoked s2 uid jid := by
  induction hr with
  | refl => exact h
  | tail _ hstep ih => exact step_revoked uid jid ih hstep

/-- Against any store in which the claimed credential id is revoked for the
claimed user, the gate rejects the still-verifying signed token with the
permission-denied error, at any non-allow-listed URL. -/
theorem revoked_gate_rejects (secret : String) (s2 : Store) (url2 : String) (c : JWTClaims)
    (hurl2 : (urlIncludes url2 "documentation" || urlIncludes url2 "health") = false)
    (hrev : Revoked s2 c.userId c.id) :
    authHook secret s2 url2 (some (AuthHeaderVal.bearer (TokenStr.signed secret c))) =
      Except.error AppError.permissionDeniedError := by
  unfold authHook
  rw [hurl2, if_neg (fun hx => Bool.noConfusion hx)]
  dsimp only [extractBearer, verifyToken]
  rw [if_pos rfl]
  dsimp only
  cases hfu : findUserById s2 c.userId with
  | none => rfl
  | some user =>
    dsimp only
    have hfu2 := hfu
    unfold findUserById at hfu2
    have huid := List.find?_some hfu2
    simp only [decide_eq_true_eq] at huid
    cases hjw : jwtTokenById s2 user c.id with
    | none => rfl
    | some j =>
      dsimp only
      have hj := List.find?_some (show s2.jwtTokens.find? _ = some j from hjw)
      have hjm := List.mem_of_find?_eq_some (show s2.jwtTokens.find? _ = some j from hjw)
      simp only [Bool.and_eq_true, decide_eq_true_eq] at hj
      have hact : j.active = false := hrev.2 j hjm (hj.1.trans huid) hj.2
      rw [if_neg (by rw [hact]; exact Bool.noConfusion)]

/-- Claim C4 (revocation effectiveness): whenever the protected logout call
succeeds, its bearer token still verifies against the gate's secret, yet
every subsequent protected-route request bearing the same token — against
the post-logout store or any store reachable from it by further operations,
at any non-allow-listed URL — is rejected by the gate with the
permission-denied error: the referenced session credential fails the
liveness check, and its deactivation is never reversed. -/
theorem logout_revocation_effective (secret : String) (s : Store) (reqId url : String)
    (header : Option AuthHeaderVal) (hwf : WF s)
    (hsucc : (protectedLogout secret s reqId url header).res.isOk = true) :
    ∃ c, header = some (AuthHeaderVal.bearer (TokenStr.signed secret c)) ∧
      verifyToken secret (TokenStr.signed secret c) = Except.ok c ∧
      ∀ s2, Reachable (protectedLogout secret s reqId url header).store s2 →
        ∀ url2, (urlIncludes url2 "documentation" || urlIncludes url2 "health") = false →
          authHook secret s2 url2 header = Except.error AppError.permissionDeniedError := by
  unfold protectedLogout at hsucc ⊢
  cases hh : authHook secret s url header with
  | error e =>
    rw [hh] at hsucc
    exact Bool.noConfusion hsucc
  | ok uid =>
    rw [hh] at hsucc
    dsimp only at hsucc ⊢
    cases uid with
    | none => exact Bool.noConfusion hsucc
    | some u0 =>
      obtain ⟨hcf, c, user, j, hheader, hfu, hjw, hact, hu0⟩ :=
        authHook_ok_some secret s url header u0 hh
      subst hheader
      subst hu0
      have hfu2 := hfu
      unfold findUserById at hfu2
      have huid := List.find?_some hfu2
      simp only [decide_eq_true_eq] at huid
      have hfind2 : findUserById s user.id = some user := by rw [huid]; exact hfu
      have hlogout : logout s reqId (some user.id) =
          { res := Except.ok { requestId := reqId }, store := userLogout s user, sent := [] } := by
        unfold logout
        dsimp only
        rw [hfind2]
      have hjuser := List.find?_some (show s.jwtTokens.find? _ = some j from hjw)
      simp only [Bool.and_eq_true, decide_eq_true_eq] at hjuser
      have hjmem := List.mem_of_find?_eq_some (show s.jwtTokens.find? _ = some j from hjw)
      refine ⟨c, rfl, by simp [verifyToken], ?_⟩
      intro s2 hr url2 hurl2
      rw [hlogout] at hr
      dsimp only at hr
      have hrev0 : Revoked (userLogout s user) c.userId c.id := by
        constructor
        · have hb := hwf.2.2.2.1 j hjmem
          have hji : j.id = c.id := hjuser.2
          show c.id < s.nextId
          omega
        · intro x hx hxu hxi
          unfold userLogout at hx
          dsimp only at hx
          obtain ⟨y, hy, hfy⟩ := List.mem_map.mp hx
          by_cases hc2 : y.userId = user.id
          · rw [if_pos hc2] at hfy; subst hfy; rfl
          · rw [if_neg hc2] at hfy; subst hfy
            exact absurd (hxu.trans huid.symm) hc2
      exact revoked_gate_rejects secret s2 url2 c hurl2
        (reachable_revoked c.userId c.id hrev0 hr)

/-- Witness for C4: one user with one active credential; the protected
logout call with its signed token succeeds, after which the gate rejects
the same token in every reachable store at every non-allow-listed URL. -/
theorem logout_revocation_effective_witness :
    (WF { users := [{ id := 0 }]
          userEmails := [{ value := "a@x.com", main := true, userId := 0 }]
          tempTokens := []
          jwtTokens := [{ id := 1, active := true, userId := 0 }]
          nextId := 2 } ∧
    (protectedLogout "k"
        { users := [{ id := 0 }]
          userEmails := [{ value := "a@x.com", main := true, userId := 0 }]
          tempTokens := []
          jwtTokens := [{ id := 1, active := true, userId := 0 }]
          nextId := 2 } "rq" "/auth/logout"
        (some (AuthHeaderVal.bearer (TokenStr.signed "k"
          { id := 1, userId := 0, userEmail := "a@x.com" })))).res.isOk = true ∧
    ∃ c, (some (AuthHeaderVal.bearer (TokenStr.signed "k"
          { id := 1, userId := 0, userEmail := "a@x.com" })) : Option AuthHeaderVal) =
        some (AuthHeaderVal.bearer (TokenStr.signed "k" c)) ∧
      verifyToken "k" (TokenStr.signed "k" c) = Except.ok c ∧
      ∀ s2, Reachable (protectedLogout "k"
          { users := [{ id := 0 }]
            userEmails := [{ value := "a@x.com", main := true, userId := 0 }]
            tempTokens := []
            jwtTokens := [{ id := 1, active := true, userId := 0 }]
            nextId := 2 } "rq" "/auth/logout"
          (some (AuthHeaderVal.bearer (TokenStr.signed "k"
            { id := 1, userId := 0, userEmail := "a@x.com" })))).store s2 →
        ∀ url2, (urlIncludes url2 "documentation" || urlIncludes url2 "health") = false →
          authHook "k" s2 url2
            (some (AuthHeaderVal.bearer (TokenStr.signed "k"
              { id := 1, userId := 0, userEmail := "a@x.com" }))) =
            Except.error AppError.permissionDeniedError) :=
  ⟨by unfold WF; decide, by decide,
    logout_revocation_effective "k" _ "rq" "/auth/logout" _ (by unfold WF; decide) (by decide)⟩

end Bibus
